import Mathlib

/-!
Verification development for the fmks Cahn–Hilliard benchmarking harness
(`sandbox/ch-benchmark.ipynb`).

The notebook defines `time_ch(num_workers, get, shape=(48,200,200),
chunks=(1,200,200), n_steps=100)`, whose body is
`generate_cahn_hilliard_data(shape, chunks=chunks, n_steps=n_steps)[1]
.compute(num_workers=num_workers, get=get)` with no return statement, and
two timing loops `for n_proc in (8, 4, 2, 1): %timeit time_ch(n_proc, get)`,
one with the threaded scheduler and one with the multiprocessing scheduler.

`generate_cahn_hilliard_data` and the schedulers themselves are not part of
the repository snapshot; where the specification's components
(ChunkedSimulationGraph, SchedulerAdapter, BenchmarkRunner) have no source
here, they are modelled from the spec, as marked on each definition.
-/

set_option autoImplicit false
set_option linter.unusedVariables false

namespace Fmks

/-- A volume shape (depth, height, width), from the notebook's
`shape=(48, 200, 200)` tuples. -/
structure VolumeShape where
  d : Nat
  h : Nat
  w : Nat
deriving DecidableEq, Repr

/-- A chunk block size along each axis, from the notebook's
`chunks=(1, 200, 200)` tuples. -/
structure ChunkSpec where
  d : Nat
  h : Nat
  w : Nat
deriving DecidableEq, Repr

/-- Simulation parameters: volume shape, chunk spec, number of steps. -/
structure SimulationParams where
  shape : VolumeShape
  chunk : ChunkSpec
  n_steps : Nat
deriving DecidableEq, Repr

/-- Number of chunk blocks along one axis: ceiling division, so a ragged
final chunk is counted when the block size does not divide the dimension. -/
def chunksAlong (dim blk : Nat) : Nat := (dim + blk - 1) / blk

/-- Total number of chunk blocks in the partition of the volume. -/
def numChunks (p : SimulationParams) : Nat :=
  chunksAlong p.shape.d p.chunk.d * chunksAlong p.shape.h p.chunk.h *
    chunksAlong p.shape.w p.chunk.w

/-- Modelled from the spec: configuration validity checked at graph-build
time — n_steps ≥ 1, chunk dimensions positive and no larger than the
corresponding volume dimension. -/
def validConfig (p : SimulationParams) : Bool :=
  decide (1 ≤ p.n_steps) && decide (1 ≤ p.chunk.d) && decide (1 ≤ p.chunk.h) &&
    decide (1 ≤ p.chunk.w) && decide (p.chunk.d ≤ p.shape.d) &&
    decide (p.chunk.h ≤ p.shape.h) && decide (p.chunk.w ≤ p.shape.w)

/-- The default shape of `time_ch` in the notebook. -/
def defaultShape : VolumeShape := ⟨48, 200, 200⟩

/-- The default chunk spec of `time_ch` in the notebook. -/
def defaultChunks : ChunkSpec := ⟨1, 200, 200⟩

/-- The default step count of `time_ch` in the notebook. -/
def defaultNSteps : Nat := 100

/-! ### Scheduled chunk-step execution

Modelled from the spec: one simulation step updates every chunk from a
read-only snapshot of the previous step's states (chunk `i`'s new state may
read any chunk's previous state, covering neighbor-boundary coupling).  A
scheduler realizes one step by running the per-chunk tasks in some order;
the order is the only scheduling freedom. -/

/-- Boolean membership of a chunk index in a task list. -/
def memB (j : Nat) : List Nat → Bool
  | [] => false
  | i :: rest => (j == i) || memB j rest

/-- Modelled from the spec: run the per-chunk tasks of one step in the
order given by `sched`.  Every task reads the immutable previous-step
snapshot `prev` and writes only its own chunk's slot in `acc`. -/
def applyTasks {α : Type} (upd : Nat → (Nat → α) → α) (prev : Nat → α) :
    List Nat → (Nat → α) → (Nat → α)
  | [], acc => acc
  | i :: rest, acc =>
      applyTasks upd prev rest (fun j => if j == i then upd i prev else acc j)

/-- One full synchronous step over the `n` chunks: chunk `j < n` is updated
from the previous snapshot, all other indices are untouched. -/
def stepBounded {α : Type} (n : Nat) (upd : Nat → (Nat → α) → α)
    (prev : Nat → α) : Nat → α :=
  fun j => if j < n then upd j prev else prev j

/-- `k` synchronous steps over the `n` chunks. -/
def iterSteps {α : Type} (n : Nat) (upd : Nat → (Nat → α) → α) :
    (Nat → α) → Nat → (Nat → α)
  | st, 0 => st
  | st, k + 1 => iterSteps n upd (stepBounded n upd st) k

/-- Modelled from the spec: realize the whole graph as a sequence of
scheduled steps, one task order per step. -/
def runScheduled {α : Type} (upd : Nat → (Nat → α) → α) :
    (Nat → α) → List (List Nat) → (Nat → α)
  | st, [] => st
  | st, sched :: rest => runScheduled upd (applyTasks upd st sched st) rest

/-- A task order is a schedule for `n` chunks when it contains exactly the
chunk indices below `n` (each at least once, nothing else). -/
def goodScheduleB (n : Nat) (sched : List Nat) : Bool :=
  (List.range n).all (fun j => memB j sched) && sched.all (fun i => decide (i < n))

/-- A scheduled run for `steps` steps over `n` chunks: one good task order
per step. -/
def goodSchedsB (n steps : Nat) (scheds : List (List Nat)) : Bool :=
  (scheds.length == steps) && scheds.all (goodScheduleB n)

/-! ### Graph construction, scheduler adapter, trial invocation -/

/-- Modelled from the spec: task-node descriptors of the computation graph —
one initialization node per chunk, one step-update node per chunk per step,
and the two final-assembly nodes.  Nodes carry only indices, never computed
state. -/
inductive NodeKind where
  | initChunk (idx : Nat)
  | stepUpdate (idx : Nat) (step : Nat)
  | assembleMicrostructure
  | assembleResponse
deriving DecidableEq, Repr

/-- Modelled from the spec: the node list of the graph built from `p`. -/
def graphNodes (p : SimulationParams) : List NodeKind :=
  (List.range (numChunks p)).map NodeKind.initChunk ++
    (List.range (numChunks p * p.n_steps)).map
      (fun k => NodeKind.stepUpdate (k % numChunks p) (k / numChunks p + 1)) ++
    [NodeKind.assembleMicrostructure, NodeKind.assembleResponse]

/-- A built computation graph: the parameters it was built from and its
node descriptors.  Pure data — backend-agnostic and serializable. -/
structure ComputationGraph where
  params : SimulationParams
  nodes : List NodeKind
deriving DecidableEq, Repr

/-- The two scheduler backends compared by the notebook:
`dask.threaded.get` and `dask.multiprocessing.get`. -/
inductive SchedulerKind where
  | threaded
  | multiprocess
deriving DecidableEq, Repr

/-- The error taxonomy of the harness, from the spec. -/
inductive HarnessError where
  | configurationError
  | executionError
  | workerFailure
deriving DecidableEq, Repr

/-- Modelled from the spec: `build` validates the configuration and
constructs the lazy graph.  It receives the step-update collaborator `upd`
(as the real builder does) but only records structure, never applies it. -/
def build {α : Type} (upd : Nat → (Nat → α) → α) (p : SimulationParams) :
    Except HarnessError ComputationGraph :=
  if validConfig p then Except.ok ⟨p, graphNodes p⟩
  else Except.error HarnessError.configurationError

/-- The two logical outputs of the built graph: the initial microstructure
field and the final response field. -/
inductive OutputField where
  | microstructure
  | response
deriving DecidableEq, Repr

/-- One lazy output of a built graph, as handed around before `compute`. -/
structure LazyOutput where
  graph : ComputationGraph
  field : OutputField
deriving DecidableEq, Repr

/-- Embedding of `generate_cahn_hilliard_data(shape, chunks=chunks,
n_steps=n_steps)` as used by `time_ch`: builds the lazy graph and returns
the (microstructure, response) pair of unevaluated outputs.  The function
itself is not in the snapshot; its contract is modelled from the spec and
the notebook's description. -/
def generate_cahn_hilliard_data {α : Type} (upd : Nat → (Nat → α) → α)
    (shape : VolumeShape) (chunks : ChunkSpec) (n_steps : Nat) :
    Except HarnessError (LazyOutput × LazyOutput) :=
  match build upd ⟨shape, chunks, n_steps⟩ with
  | Except.error e => Except.error e
  | Except.ok g =>
      Except.ok (⟨g, OutputField.microstructure⟩, ⟨g, OutputField.response⟩)

/-- Realize one lazy output: the microstructure output assembles the initial
chunk states; the response output assembles the chunk states after the
scheduled steps. -/
def realizeOutput {α : Type} (upd : Nat → (Nat → α) → α) (init : Nat → α)
    (out : LazyOutput) (scheds : List (List Nat)) : List α :=
  match out.field with
  | OutputField.microstructure => (List.range (numChunks out.graph.params)).map init
  | OutputField.response =>
      (List.range (numChunks out.graph.params)).map (runScheduled upd init scheds)

/-- Modelled from the spec: the scheduler-adapter `execute` — rejects
`worker_count < 1` with `ExecutionError`, otherwise realizes the requested
output under the backend's task ordering `scheds`.  The backend kind and the
worker count influence only the scheduling, never the realized values. -/
def execute {α : Type} (upd : Nat → (Nat → α) → α) (init : Nat → α)
    (out : LazyOutput) (kind : SchedulerKind) (worker_count : Nat)
    (scheds : List (List Nat)) : Except HarnessError (List α) :=
  if worker_count < 1 then Except.error HarnessError.executionError
  else Except.ok (realizeOutput upd init out scheds)

/-- Events of one trial invocation, in the order the notebook's `time_ch`
body performs them. -/
inductive TraceEvent where
  | graphConstruction
  | computeCall (field : OutputField)
  | resultTeardown
deriving DecidableEq, Repr

/-- Embedding of the notebook's `time_ch`: build the graph, call `compute`
on element `[1]` of the returned pair (the response field) with the given
worker count and scheduler, and discard the result — the Python function has
no return statement, so a normal return yields `None` (here `Option.none`).
Alongside the Python return value it records the event trace of the call;
`%timeit time_ch(...)` brackets the whole call, so this trace is exactly the
timed interval of one repetition. -/
def time_ch {α : Type} (upd : Nat → (Nat → α) → α) (init : Nat → α)
    (num_workers : Nat) (get : SchedulerKind) (scheds : List (List Nat))
    (shape : VolumeShape) (chunks : ChunkSpec) (n_steps : Nat) :
    Except HarnessError (Option (List α)) × List TraceEvent :=
  match generate_cahn_hilliard_data upd shape chunks n_steps with
  | Except.error e => (Except.error e, [TraceEvent.graphConstruction])
  | Except.ok pr =>
      match execute upd init pr.2 get num_workers scheds with
      | Except.error e =>
          (Except.error e,
           [TraceEvent.graphConstruction, TraceEvent.computeCall pr.2.field])
      | Except.ok _ =>
          (Except.ok none,
           [TraceEvent.graphConstruction, TraceEvent.computeCall pr.2.field,
            TraceEvent.resultTeardown])

/-- A check that a trace event is the execution (`compute`) call. -/
def isComputeCall : TraceEvent → Bool
  | TraceEvent.computeCall _ => true
  | _ => false

/-! ### Benchmark rows, the runner and the report order -/

/-- One row of the benchmark report. -/
structure BenchmarkRow where
  worker_count : Nat
  scheduler_kind : SchedulerKind
  best_of_k : Nat
deriving DecidableEq, Repr

/-- The worker counts of both notebook timing loops: `(8, 4, 2, 1)`. -/
def workerCounts : List Nat := [8, 4, 2, 1]

/-- The rows the notebook's harness emits, in emission order: the threaded
loop over `(8, 4, 2, 1)` first, then the multiprocessing loop over the same
counts; `stat kind wc` is the best-of-K statistic `%timeit` reports. -/
def harnessRows (stat : SchedulerKind → Nat → Nat) : List BenchmarkRow :=
  workerCounts.map (fun wc => ⟨wc, SchedulerKind.threaded, stat SchedulerKind.threaded wc⟩) ++
    workerCounts.map (fun wc => ⟨wc, SchedulerKind.multiprocess, stat SchedulerKind.multiprocess wc⟩)

/-- Row filter by backend kind. -/
def isKind (k : SchedulerKind) (r : BenchmarkRow) : Bool := decide (r.scheduler_kind = k)

/-- Strict descent of a worker-count sequence. -/
def strictDesc : List Nat → Bool
  | [] => true
  | [_] => true
  | a :: b :: rest => decide (b < a) && strictDesc (b :: rest)

/-- Success check for a fallible computation. -/
def isOk {ε β : Type} : Except ε β → Bool
  | Except.ok _ => true
  | Except.error _ => false

/-- Modelled from the spec: a failed trial is wrapped with the trial's
worker count and backend kind. -/
inductive TrialError where
  | benchmarkError (worker_count : Nat) (scheduler_kind : SchedulerKind)
      (cause : HarnessError)
deriving DecidableEq, Repr

/-- Modelled from the spec: run the timed repetitions of one trial; any
failing repetition fails the whole trial (fail-fast, no retry). -/
def runReps (rep : Nat → Except HarnessError Nat) : Nat → Except HarnessError (List Nat)
  | 0 => Except.ok []
  | k + 1 =>
      match rep k with
      | Except.error e => Except.error e
      | Except.ok t =>
          match runReps rep k with
          | Except.error e => Except.error e
          | Except.ok ts => Except.ok (t :: ts)

/-- Best-of-K: the minimum of the repetition samples. -/
def bestOf : List Nat → Nat
  | [] => 0
  | t :: rest => rest.foldl Nat.min t

/-- Modelled from the spec: one worker-count trial — `k` timed repetitions
reduced to the best-of-K statistic. -/
def trialOf (rep : Nat → Except HarnessError Nat) (k : Nat) :
    Except HarnessError Nat :=
  match runReps rep k with
  | Except.error e => Except.error e
  | Except.ok ts => Except.ok (bestOf ts)

/-- Modelled from the spec: the runner walks the worker-count sequence in
order; a failing trial aborts the remaining trials of that backend's
sequence and surfaces a `BenchmarkError` carrying the trial's worker count
and backend kind. -/
def runTrials (kind : SchedulerKind) (trial : Nat → Except HarnessError Nat) :
    List Nat → Except TrialError (List BenchmarkRow)
  | [] => Except.ok []
  | wc :: rest =>
      match trial wc with
      | Except.error e => Except.error (TrialError.benchmarkError wc kind e)
      | Except.ok t =>
          match runTrials kind trial rest with
          | Except.error e => Except.error e
          | Except.ok rows => Except.ok (⟨wc, kind, t⟩ :: rows)

/-- Whether a runner outcome is a `BenchmarkError` carrying the given worker
count and backend kind. -/
def isBenchmarkErrorFor (wc : Nat) (kind : SchedulerKind) :
    Except TrialError (List BenchmarkRow) → Bool
  | Except.error (TrialError.benchmarkError w k _) => decide (w = wc) && decide (k = kind)
  | Except.ok _ => false

theorem memB_iff (j : Nat) (l : List Nat) : memB j l = true ↔ j ∈ l := by
  induction l with
  | nil => simp [memB]
  | cons i rest ih => simp [memB, ih, Bool.or_eq_true, beq_iff_eq]

theorem applyTasks_apply {α : Type} (upd : Nat → (Nat → α) → α) (prev : Nat → α)
    (sched : List Nat) (acc : Nat → α) (j : Nat) :
    applyTasks upd prev sched acc j =
      if memB j sched = true then upd j prev else acc j := by
  induction sched generalizing acc with
  | nil => simp [applyTasks, memB]
  | cons i rest ih =>
    simp only [applyTasks, memB, ih, Bool.or_eq_true, beq_iff_eq]
    by_cases hr : memB j rest = true
    · simp [hr]
    · by_cases hij : j = i
      · subst hij; simp [hr]
      · simp [hr, hij]

theorem goodScheduleB_mem {n : Nat} {sched : List Nat}
    (h : goodScheduleB n sched = true) (j : Nat) :
    memB j sched = true ↔ j < n := by
  have h' := h
  simp only [goodScheduleB, Bool.and_eq_true] at h'
  rcases h' with ⟨hall, hlt⟩
  constructor
  · intro hm
    have hj : j ∈ sched := (memB_iff j sched).mp hm
    have := List.all_eq_true.mp hlt j hj
    exact of_decide_eq_true this
  · intro hj
    have := List.all_eq_true.mp hall j (List.mem_range.mpr hj)
    exact this

theorem applyTasks_good {α : Type} (upd : Nat → (Nat → α) → α) (prev : Nat → α)
    {n : Nat} {sched : List Nat} (h : goodScheduleB n sched = true) :
    applyTasks upd prev sched prev = stepBounded n upd prev := by
  funext j
  rw [applyTasks_apply, stepBounded]
  by_cases hj : j < n
  · simp [(goodScheduleB_mem h j).mpr hj, hj]
  · have : memB j sched ≠ true := fun hm => hj ((goodScheduleB_mem h j).mp hm)
    simp [this, hj]

theorem runScheduled_eq_iterSteps {α : Type} (upd : Nat → (Nat → α) → α)
    {n : Nat} (st : Nat → α) (scheds : List (List Nat))
    (h : scheds.all (goodScheduleB n) = true) :
    runScheduled upd st scheds = iterSteps n upd st scheds.length := by
  induction scheds generalizing st with
  | nil => rfl
  | cons sched rest ih =>
    have hsched : goodScheduleB n sched = true := by
      have := List.all_eq_true.mp h sched (by simp)
      exact this
    have hrest : rest.all (goodScheduleB n) = true := by
      apply List.all_eq_true.mpr
      intro x hx
      exact List.all_eq_true.mp h x (by simp [hx])
    show runScheduled upd (applyTasks upd st sched st) rest =
      iterSteps n upd st (sched :: rest).length
    rw [applyTasks_good upd st hsched, List.length_cons]
    show runScheduled upd (stepBounded n upd st) rest =
      iterSteps n upd (stepBounded n upd st) rest.length
    exact ih (stepBounded n upd st) hrest

/-! ### Shared helper lemmas -/

theorem build_ok_eq {α : Type} (upd : Nat → (Nat → α) → α) (p : SimulationParams)
    (g : ComputationGraph) (hg : build upd p = Except.ok g) :
    g = ⟨p, graphNodes p⟩ := by
  unfold build at hg
  split at hg
  · exact (Except.ok.inj hg).symm
  · exact absurd hg (by simp)

theorem execute_ok {α : Type} (upd : Nat → (Nat → α) → α) (init : Nat → α)
    (out : LazyOutput) (kind : SchedulerKind) (w : Nat) (scheds : List (List Nat))
    (hw : 1 ≤ w) :
    execute upd init out kind w scheds = Except.ok (realizeOutput upd init out scheds) := by
  unfold execute
  rw [if_neg (Nat.not_lt.mpr hw)]

theorem generate_ok {α : Type} (upd : Nat → (Nat → α) → α) (shape : VolumeShape)
    (chunks : ChunkSpec) (n_steps : Nat)
    (hv : validConfig ⟨shape, chunks, n_steps⟩ = true) :
    generate_cahn_hilliard_data upd shape chunks n_steps =
      Except.ok (⟨⟨⟨shape, chunks, n_steps⟩, graphNodes ⟨shape, chunks, n_steps⟩⟩,
                   OutputField.microstructure⟩,
                 ⟨⟨⟨shape, chunks, n_steps⟩, graphNodes ⟨shape, chunks, n_steps⟩⟩,
                   OutputField.response⟩) := by
  unfold generate_cahn_hilliard_data build
  rw [hv]
  rfl

theorem time_ch_trace_eq {α : Type} (upd : Nat → (Nat → α) → α) (init : Nat → α)
    (num_workers : Nat) (get : SchedulerKind) (scheds : List (List Nat))
    (shape : VolumeShape) (chunks : ChunkSpec) (n_steps : Nat)
    (hv : validConfig ⟨shape, chunks, n_steps⟩ = true) (hw : 1 ≤ num_workers) :
    (time_ch upd init num_workers get scheds shape chunks n_steps).2 =
      [TraceEvent.graphConstruction, TraceEvent.computeCall OutputField.response,
       TraceEvent.resultTeardown] := by
  simp [time_ch, generate_ok upd shape chunks n_steps hv, execute,
    Nat.not_lt.mpr hw]

/-- Concrete step-update collaborator for witness instantiations. -/
def updW : Nat → (Nat → Nat) → Nat := fun i prev => prev i + prev 0 + i + 1

/-- Concrete initial chunk states for witness instantiations. -/
def initW : Nat → Nat := fun j => j

/-- Small concrete simulation parameters for witness instantiations:
shape (2,2,2), chunks (1,2,2), two steps — two chunks. -/
def pW : SimulationParams := ⟨⟨2, 2, 2⟩, ⟨1, 2, 2⟩, 2⟩

/-- The graph built from `pW`. -/
def gW : ComputationGraph := ⟨pW, graphNodes pW⟩

/-! ### Claim theorems -/

/-- C4: for every execution request with worker_count < 1 (in particular
worker_count = 0), the scheduler-adapter execute operation fails with
ExecutionError. -/
theorem execute_rejects_invalid_worker_count {α : Type}
    (upd : Nat → (Nat → α) → α) (init : Nat → α) (out : LazyOutput)
    (kind : SchedulerKind) (worker_count : Nat) (scheds : List (List Nat))
    (h : worker_count < 1) :
    execute upd init out kind worker_count scheds =
      Except.error HarnessError.executionError := by
  unfold execute
  rw [if_pos h]

/-- C4 witness: worker_count = 0 is rejected with ExecutionError on a
concrete request. -/
theorem execute_rejects_invalid_worker_count_witness :
    (0 : Nat) < 1 ∧
      execute updW initW ⟨gW, OutputField.response⟩ SchedulerKind.threaded 0
          [[0, 1], [1, 0]] =
        Except.error HarnessError.executionError :=
  ⟨by decide,
   execute_rejects_invalid_worker_count updW initW ⟨gW, OutputField.response⟩
     SchedulerKind.threaded 0 [[0, 1], [1, 0]] (by decide)⟩

/-- C5: graph build fails with ConfigurationError — at build time — when
n_steps < 1 or when a chunk dimension exceeds the corresponding volume
dimension on some axis, and execution never raises ConfigurationError. -/
theorem build_rejects_bad_configuration {α β : Type}
    (upd : Nat → (Nat → α) → α) (upd' : Nat → (Nat → β) → β) (init : Nat → β)
    (out : LazyOutput) (kind : SchedulerKind) (worker_count : Nat)
    (scheds : List (List Nat)) (p : SimulationParams)
    (h : p.n_steps < 1 ∨ p.shape.d < p.chunk.d ∨ p.shape.h < p.chunk.h ∨
      p.shape.w < p.chunk.w) :
    build upd p = Except.error HarnessError.configurationError ∧
      execute upd' init out kind worker_count scheds ≠
        Except.error HarnessError.configurationError := by
  constructor
  · have hv : validConfig p = false := by
      unfold validConfig
      rcases h with h | h | h | h <;> simp [Nat.not_le.mpr h]
    unfold build
    rw [hv]
    rfl
  · unfold execute
    split <;> simp

/-- C5 witness: n_steps = 0 is rejected at build time on a concrete
configuration, and a concrete execution does not raise ConfigurationError. -/
theorem build_rejects_bad_configuration_witness :
    ((⟨⟨2, 2, 2⟩, ⟨1, 2, 2⟩, 0⟩ : SimulationParams).n_steps < 1 ∨
        (⟨⟨2, 2, 2⟩, ⟨1, 2, 2⟩, 0⟩ : SimulationParams).shape.d <
          (⟨⟨2, 2, 2⟩, ⟨1, 2, 2⟩, 0⟩ : SimulationParams).chunk.d ∨
        (⟨⟨2, 2, 2⟩, ⟨1, 2, 2⟩, 0⟩ : SimulationParams).shape.h <
          (⟨⟨2, 2, 2⟩, ⟨1, 2, 2⟩, 0⟩ : SimulationParams).chunk.h ∨
        (⟨⟨2, 2, 2⟩, ⟨1, 2, 2⟩, 0⟩ : SimulationParams).shape.w <
          (⟨⟨2, 2, 2⟩, ⟨1, 2, 2⟩, 0⟩ : SimulationParams).chunk.w) ∧
      (build updW ⟨⟨2, 2, 2⟩, ⟨1, 2, 2⟩, 0⟩ =
          Except.error HarnessError.configurationError ∧
        execute updW initW ⟨gW, OutputField.response⟩ SchedulerKind.multiprocess 1
            [[0, 1], [1, 0]] ≠
          Except.error HarnessError.configurationError) :=
  ⟨by decide,
   build_rejects_bad_configuration updW updW initW ⟨gW, OutputField.response⟩
     SchedulerKind.multiprocess 1 [[0, 1], [1, 0]] ⟨⟨2, 2, 2⟩, ⟨1, 2, 2⟩, 0⟩
     (by decide)⟩

/-- C10: with the notebook's default arguments shape=(48,200,200),
chunks=(1,200,200), n_steps=100, every chunk dimension divides the
corresponding volume dimension exactly, the partition has 48 equal chunks,
the ceiling chunk count agrees with exact division on every axis (no ragged
remainder chunk), and the default configuration is valid. -/
theorem default_params_divide_evenly :
    defaultShape.d % defaultChunks.d = 0 ∧
      defaultShape.h % defaultChunks.h = 0 ∧
      defaultShape.w % defaultChunks.w = 0 ∧
      numChunks ⟨defaultShape, defaultChunks, defaultNSteps⟩ = 48 ∧
      chunksAlong defaultShape.d defaultChunks.d = defaultShape.d / defaultChunks.d ∧
      chunksAlong defaultShape.h defaultChunks.h = defaultShape.h / defaultChunks.h ∧
      chunksAlong defaultShape.w defaultChunks.w = defaultShape.w / defaultChunks.w ∧
      validConfig ⟨defaultShape, defaultChunks, defaultNSteps⟩ = true := by
  decide

/-- C6: the harness's report rows are grouped by scheduler backend — all
threaded rows first, then all multiprocessing rows — and within each group
the worker counts appear in strictly descending order (8, 4, 2, 1). -/
theorem report_grouped_and_descending (stat : SchedulerKind → Nat → Nat) :
    harnessRows stat =
        (harnessRows stat).filter (isKind SchedulerKind.threaded) ++
          (harnessRows stat).filter (isKind SchedulerKind.multiprocess) ∧
      ((harnessRows stat).filter (isKind SchedulerKind.threaded)).map
          BenchmarkRow.worker_count = workerCounts ∧
      ((harnessRows stat).filter (isKind SchedulerKind.multiprocess)).map
          BenchmarkRow.worker_count = workerCounts ∧
      strictDesc workerCounts = true :=
  ⟨rfl, rfl, rfl, rfl⟩

/-- C6 witness: the grouping and descending order at one concrete
best-of-K statistic table. -/
theorem report_grouped_and_descending_witness :
    harnessRows (fun _ w => 64 / w) =
        (harnessRows (fun _ w => 64 / w)).filter (isKind SchedulerKind.threaded) ++
          (harnessRows (fun _ w => 64 / w)).filter (isKind SchedulerKind.multiprocess) ∧
      ((harnessRows (fun _ w => 64 / w)).filter (isKind SchedulerKind.threaded)).map
          BenchmarkRow.worker_count = workerCounts ∧
      ((harnessRows (fun _ w => 64 / w)).filter (isKind SchedulerKind.multiprocess)).map
          BenchmarkRow.worker_count = workerCounts ∧
      strictDesc workerCounts = true :=
  report_grouped_and_descending (fun _ w => 64 / w)

/-- C1: determinism — for one built computation graph, any two executions
of the response field that differ in scheduler backend, worker count and
task ordering realize equal final response fields, provided both worker
counts are at least 1 and both orderings schedule the graph's chunks for its
declared number of steps. -/
theorem scheduler_determinism {α : Type} (upd : Nat → (Nat → α) → α)
    (init : Nat → α) (p : SimulationParams) (g : ComputationGraph)
    (k₁ k₂ : SchedulerKind) (w₁ w₂ : Nat) (s₁ s₂ : List (List Nat))
    (hg : build upd p = Except.ok g) (hw₁ : 1 ≤ w₁) (hw₂ : 1 ≤ w₂)
    (hs₁ : goodSchedsB (numChunks p) p.n_steps s₁ = true)
    (hs₂ : goodSchedsB (numChunks p) p.n_steps s₂ = true) :
    execute upd init ⟨g, OutputField.response⟩ k₁ w₁ s₁ =
      execute upd init ⟨g, OutputField.response⟩ k₂ w₂ s₂ := by
  have hp : g.params = p := by rw [build_ok_eq upd p g hg]
  obtain ⟨hl₁, ha₁⟩ := Bool.and_eq_true_iff.mp hs₁
  obtain ⟨hl₂, ha₂⟩ := Bool.and_eq_true_iff.mp hs₂
  rw [execute_ok upd init _ k₁ w₁ s₁ hw₁, execute_ok upd init _ k₂ w₂ s₂ hw₂]
  show Except.ok ((List.range (numChunks g.params)).map (runScheduled upd init s₁)) =
    Except.ok ((List.range (numChunks g.params)).map (runScheduled upd init s₂))
  have hlen₁ : s₁.length = p.n_steps := by simpa using hl₁
  have hlen₂ : s₂.length = p.n_steps := by simpa using hl₂
  rw [hp]
  rw [runScheduled_eq_iterSteps upd init s₁ ha₁,
    runScheduled_eq_iterSteps upd init s₂ ha₂, hlen₁, hlen₂]

/-- C1 witness: a threaded run with 1 worker and a multiprocessing run with
2 workers, under different task orderings, realize the same response field
on a concrete graph. -/
theorem scheduler_determinism_witness :
    build updW pW = Except.ok gW ∧ (1 : Nat) ≤ 1 ∧ (1 : Nat) ≤ 2 ∧
      goodSchedsB (numChunks pW) pW.n_steps [[0, 1], [0, 1]] = true ∧
      goodSchedsB (numChunks pW) pW.n_steps [[1, 0], [1, 0, 1]] = true ∧
      execute updW initW ⟨gW, OutputField.response⟩ SchedulerKind.threaded 1
          [[0, 1], [0, 1]] =
        execute updW initW ⟨gW, OutputField.response⟩ SchedulerKind.multiprocess 2
          [[1, 0], [1, 0, 1]] :=
  ⟨rfl, by decide, by decide, by decide, by decide,
   scheduler_determinism updW initW pW gW SchedulerKind.threaded
     SchedulerKind.multiprocess 1 2 [[0, 1], [0, 1]] [[1, 0], [1, 0, 1]] rfl
     (by decide) (by decide) (by decide) (by decide)⟩

/-- C3: laziness — building the graph performs no step and no
floating-point work: the built graph is identical for any two step-update
collaborators (even over different state types), its node count is the
structural chunks·steps count plus per-chunk initialization and the two
assembly nodes, and the simulation steps run only inside the compute
(execute) call, which realizes the response as the n_steps-fold step
iteration from the initial states. -/
theorem build_performs_no_step {α β : Type} (upd₁ : Nat → (Nat → α) → α)
    (upd₂ : Nat → (Nat → β) → β) (init : Nat → α) (p : SimulationParams)
    (g : ComputationGraph) (kind : SchedulerKind) (w : Nat)
    (scheds : List (List Nat)) (hg : build upd₁ p = Except.ok g) (hw : 1 ≤ w)
    (hs : goodSchedsB (numChunks p) p.n_steps scheds = true) :
    build upd₁ p = build upd₂ p ∧
      g.nodes.length = numChunks p + numChunks p * p.n_steps + 2 ∧
      execute upd₁ init ⟨g, OutputField.response⟩ kind w scheds =
        Except.ok ((List.range (numChunks p)).map
          (iterSteps (numChunks p) upd₁ init p.n_steps)) := by
  obtain ⟨hl, ha⟩ := Bool.and_eq_true_iff.mp hs
  have hge := build_ok_eq upd₁ p g hg
  refine ⟨rfl, ?_, ?_⟩
  · rw [hge]
    show (graphNodes p).length = numChunks p + numChunks p * p.n_steps + 2
    simp [graphNodes]
    omega
  · rw [execute_ok upd₁ init _ kind w scheds hw]
    have hlen : scheds.length = p.n_steps := by simpa using hl
    have hnp : g.params = p := by rw [hge]
    show Except.ok ((List.range (numChunks g.params)).map (runScheduled upd₁ init scheds)) =
      Except.ok ((List.range (numChunks p)).map (iterSteps (numChunks p) upd₁ init p.n_steps))
    rw [hnp, runScheduled_eq_iterSteps upd₁ init scheds ha, hlen]

/-- C3 witness: on a concrete configuration the graph build is independent
of the step-update collaborator, has the structural node count, and compute
realizes the two-step iteration. -/
theorem build_performs_no_step_witness :
    build updW pW = Except.ok gW ∧ (1 : Nat) ≤ 1 ∧
      goodSchedsB (numChunks pW) pW.n_steps [[0, 1], [0, 1]] = true ∧
      (build updW pW = build (fun i prev => prev i * 2) pW ∧
        gW.nodes.length = numChunks pW + numChunks pW * pW.n_steps + 2 ∧
        execute updW initW ⟨gW, OutputField.response⟩ SchedulerKind.threaded 1
            [[0, 1], [0, 1]] =
          Except.ok ((List.range (numChunks pW)).map
            (iterSteps (numChunks pW) updW initW pW.n_steps))) :=
  ⟨rfl, by decide, by decide,
   build_performs_no_step updW (fun i prev => prev i * 2) initW pW gW
     SchedulerKind.threaded 1 [[0, 1], [0, 1]] rfl (by decide) (by decide)⟩

/-- C2 counterexample: the notebook's timing macro brackets the whole
time_ch call, so at this concrete trial the timed event trace is not made of
execution calls only — graph construction lies inside the timed interval. -/
theorem timed_interval_counterexample :
    ((time_ch updW initW 1 SchedulerKind.threaded [[0, 1], [0, 1]]
          ⟨2, 2, 2⟩ ⟨1, 2, 2⟩ 2).2).all isComputeCall = false ∧
      TraceEvent.graphConstruction ∈
        (time_ch updW initW 1 SchedulerKind.threaded [[0, 1], [0, 1]]
          ⟨2, 2, 2⟩ ⟨1, 2, 2⟩ 2).2 := by
  decide

/-- C2 amended: the elapsed-time measurement brackets the whole time_ch
invocation — for every successful trial the timed interval consists of graph
construction, then the execution call on the response field, then result
teardown; construction and teardown are inside the timed interval rather
than excluded from it. -/
theorem timed_interval_brackets_whole_call {α : Type}
    (upd : Nat → (Nat → α) → α) (init : Nat → α) (num_workers : Nat)
    (get : SchedulerKind) (scheds : List (List Nat)) (shape : VolumeShape)
    (chunks : ChunkSpec) (n_steps : Nat)
    (hv : validConfig ⟨shape, chunks, n_steps⟩ = true) (hw : 1 ≤ num_workers) :
    (time_ch upd init num_workers get scheds shape chunks n_steps).2 =
      [TraceEvent.graphConstruction, TraceEvent.computeCall OutputField.response,
       TraceEvent.resultTeardown] :=
  time_ch_trace_eq upd init num_workers get scheds shape chunks n_steps hv hw

/-- C2 amended witness: a concrete successful trial's timed interval is
construction, execution, teardown. -/
theorem timed_interval_brackets_whole_call_witness :
    validConfig ⟨⟨2, 2, 2⟩, ⟨1, 2, 2⟩, 2⟩ = true ∧ (1 : Nat) ≤ 1 ∧
      (time_ch updW initW 1 SchedulerKind.threaded [[0, 1], [0, 1]]
          ⟨2, 2, 2⟩ ⟨1, 2, 2⟩ 2).2 =
        [TraceEvent.graphConstruction,
         TraceEvent.computeCall OutputField.response,
         TraceEvent.resultTeardown] :=
  ⟨by decide, by decide,
   timed_interval_brackets_whole_call updW initW 1 SchedulerKind.threaded
     [[0, 1], [0, 1]] ⟨2, 2, 2⟩ ⟨1, 2, 2⟩ 2 (by decide) (by decide)⟩

/-- C8: the trial invocation never returns the simulation result — every
time_ch invocation either propagates an error or returns None, with the
realized response torn down inside the call on the successful path. -/
theorem time_ch_returns_none {α : Type} (upd : Nat → (Nat → α) → α)
    (init : Nat → α) (num_workers : Nat) (get : SchedulerKind)
    (scheds : List (List Nat)) (shape : VolumeShape) (chunks : ChunkSpec)
    (n_steps : Nat) :
    ((time_ch upd init num_workers get scheds shape chunks n_steps).1 =
        Except.ok none ∧
      TraceEvent.resultTeardown ∈
        (time_ch upd init num_workers get scheds shape chunks n_steps).2) ∨
      ∃ e, (time_ch upd init num_workers get scheds shape chunks n_steps).1 =
        Except.error e := by
  rcases hgen : generate_cahn_hilliard_data upd shape chunks n_steps with e | pr
  · exact Or.inr ⟨e, by simp [time_ch, hgen]⟩
  · rcases hex : execute upd init pr.2 get num_workers scheds with e | r
    · exact Or.inr ⟨e, by simp [time_ch, hgen, hex]⟩
    · exact Or.inl ⟨by simp [time_ch, hgen, hex], by simp [time_ch, hgen, hex]⟩

/-- C9: each trial realizes only the second element of the
(microstructure, response) pair — the generated pair has the microstructure
output first and the response output second, compute is invoked on the
response field, and the microstructure output is never computed by the
trial. -/
theorem only_response_computed {α : Type} (upd : Nat → (Nat → α) → α)
    (init : Nat → α) (num_workers : Nat) (get : SchedulerKind)
    (scheds : List (List Nat)) (shape : VolumeShape) (chunks : ChunkSpec)
    (n_steps : Nat)
    (hv : validConfig ⟨shape, chunks, n_steps⟩ = true) (hw : 1 ≤ num_workers) :
    (∃ pr, generate_cahn_hilliard_data upd shape chunks n_steps = Except.ok pr ∧
        pr.1.field = OutputField.microstructure ∧
        pr.2.field = OutputField.response) ∧
      TraceEvent.computeCall OutputField.microstructure ∉
        (time_ch upd init num_workers get scheds shape chunks n_steps).2 ∧
      TraceEvent.computeCall OutputField.response ∈
        (time_ch upd init num_workers get scheds shape chunks n_steps).2 := by
  have htr := time_ch_trace_eq upd init num_workers get scheds shape chunks
    n_steps hv hw
  refine ⟨⟨_, generate_ok upd shape chunks n_steps hv, rfl, rfl⟩, ?_, ?_⟩
  · rw [htr]
    simp
  · rw [htr]
    simp

/-- C9 witness: on a concrete trial the microstructure output is never
computed while the response output is. -/
theorem only_response_computed_witness :
    validConfig ⟨⟨2, 2, 2⟩, ⟨1, 2, 2⟩, 2⟩ = true ∧ (1 : Nat) ≤ 1 ∧
      ((∃ pr, generate_cahn_hilliard_data updW ⟨2, 2, 2⟩ ⟨1, 2, 2⟩ 2 =
            Except.ok pr ∧
          pr.1.field = OutputField.microstructure ∧
          pr.2.field = OutputField.response) ∧
        TraceEvent.computeCall OutputField.microstructure ∉
          (time_ch updW initW 1 SchedulerKind.threaded [[0, 1], [0, 1]]
            ⟨2, 2, 2⟩ ⟨1, 2, 2⟩ 2).2 ∧
        TraceEvent.computeCall OutputField.response ∈
          (time_ch updW initW 1 SchedulerKind.threaded [[0, 1], [0, 1]]
            ⟨2, 2, 2⟩ ⟨1, 2, 2⟩ 2).2) :=
  ⟨by decide, by decide,
   only_response_computed updW initW 1 SchedulerKind.threaded [[0, 1], [0, 1]]
     ⟨2, 2, 2⟩ ⟨1, 2, 2⟩ 2 (by decide) (by decide)⟩

theorem runReps_fails (rep : Nat → Except HarnessError Nat) (k : Nat)
    (h : ((List.range k).any fun j => !(isOk (rep j))) = true) :
    isOk (runReps rep k) = false := by
  induction k with
  | zero => simp at h
  | succ k ih =>
    have h' : ((List.range k).any fun j => !(isOk (rep j))) = true ∨
        isOk (rep k) = false := by
      rw [List.range_succ, List.any_append] at h
      rcases Bool.or_eq_true_iff.mp h with h | h
      · exact Or.inl h
      · right
        simpa using h
    rcases h' with h' | h'
    · have hbad := ih h'
      cases hk : rep k with
      | error e => simp [runReps, hk, isOk]
      | ok t =>
        cases hr : runReps rep k with
        | error e => simp [runReps, hk, hr, isOk]
        | ok ts => rw [hr] at hbad; simp [isOk] at hbad
    · cases hk : rep k with
      | ok t => rw [hk] at h'; simp [isOk] at h'
      | error e => simp [runReps, hk, isOk]

theorem trialOf_fails (rep : Nat → Except HarnessError Nat) (k : Nat)
    (h : ((List.range k).any fun j => !(isOk (rep j))) = true) :
    isOk (trialOf rep k) = false := by
  have hbad := runReps_fails rep k h
  cases hr : runReps rep k with
  | error e => simp [trialOf, hr, isOk]
  | ok ts => rw [hr] at hbad; simp [isOk] at hbad

theorem runTrials_abort (kind : SchedulerKind)
    (trial : Nat → Except HarnessError Nat) (wc : Nat) (post : List Nat)
    (pre : List Nat) (hpre : (pre.all fun w => isOk (trial w)) = true)
    (hfail : isOk (trial wc) = false) :
    isBenchmarkErrorFor wc kind (runTrials kind trial (pre ++ wc :: post)) = true := by
  induction pre with
  | nil =>
    cases hk : trial wc with
    | ok t => rw [hk] at hfail; simp [isOk] at hfail
    | error e => simp [runTrials, hk, isBenchmarkErrorFor]
  | cons w pre ih =>
    have hw : isOk (trial w) = true := by
      have := hpre
      simp only [List.all_cons, Bool.and_eq_true] at this
      exact this.1
    have hpre' : (pre.all fun x => isOk (trial x)) = true := by
      have := hpre
      simp only [List.all_cons, Bool.and_eq_true] at this
      exact this.2
    have ihp := ih hpre'
    cases hk : trial w with
    | error e => rw [hk] at hw; simp [isOk] at hw
    | ok t =>
      cases hrun : runTrials kind trial (pre ++ wc :: post) with
      | error te =>
        rw [hrun] at ihp
        simpa [runTrials, hk, hrun, isBenchmarkErrorFor] using ihp
      | ok rows => rw [hrun] at ihp; simp [isBenchmarkErrorFor] at ihp

/-- C7: if any timed repetition of some worker count's trial fails, the
runner's outcome is a BenchmarkError carrying that worker count and the
backend kind with no BenchmarkRow produced, and this outcome stands for
every possible remainder of the worker-count sequence — the remaining
trials are aborted, not skipped or retried. -/
theorem failing_repetition_aborts_run (kind : SchedulerKind)
    (reps : Nat → Nat → Except HarnessError Nat) (k : Nat) (pre : List Nat)
    (wc : Nat) (post : List Nat)
    (hpre : (pre.all fun w => isOk (trialOf (reps w) k)) = true)
    (hfail : ((List.range k).any fun j => !(isOk (reps wc j))) = true) :
    isBenchmarkErrorFor wc kind
        (runTrials kind (fun w => trialOf (reps w) k) (pre ++ wc :: post)) = true ∧
      isOk (runTrials kind (fun w => trialOf (reps w) k) (pre ++ wc :: post)) = false := by
  have h1 := runTrials_abort kind (fun w => trialOf (reps w) k) wc post pre hpre
    (trialOf_fails (reps wc) k hfail)
  refine ⟨h1, ?_⟩
  cases hr : runTrials kind (fun w => trialOf (reps w) k) (pre ++ wc :: post) with
  | error te => simp [isOk]
  | ok rows => rw [hr] at h1; simp [isBenchmarkErrorFor] at h1

/-- Concrete repetition outcomes for the C7 witness: the worker-count-4
trial's second repetition raises a WorkerFailure, every other repetition
succeeds. -/
def repsW : Nat → Nat → Except HarnessError Nat :=
  fun w j =>
    if w = 4 ∧ j = 1 then Except.error HarnessError.workerFailure
    else Except.ok (w + j)

/-- C7 witness: in the threaded sequence (8, 4, 2, 1) with three
repetitions per trial, a failing repetition at worker count 4 makes the run
surface a BenchmarkError for worker count 4 without producing rows. -/
theorem failing_repetition_aborts_run_witness :
    (([8] : List Nat).all fun w => isOk (trialOf (repsW w) 3)) = true ∧
      ((List.range 3).any fun j => !(isOk (repsW 4 j))) = true ∧
      (isBenchmarkErrorFor 4 SchedulerKind.threaded
          (runTrials SchedulerKind.threaded (fun w => trialOf (repsW w) 3)
            ([8] ++ 4 :: [2, 1])) = true ∧
        isOk (runTrials SchedulerKind.threaded (fun w => trialOf (repsW w) 3)
          ([8] ++ 4 :: [2, 1])) = false) :=
  ⟨by decide, by decide,
   failing_repetition_aborts_run SchedulerKind.threaded repsW 3 [8] 4 [2, 1]
     (by decide) (by decide)⟩

end Fmks
